import Mathlib

/-!
Verification of the streaming ingestion layer of a multi-venue market-data
client, as a shallow embedding of the Python sources under `src/`.

Python floats are modelled as `ℚ`: every arithmetic operation the embedded
code performs (doubling and capping small integral delays, halving a sum,
adding a zero default) is exact in IEEE double precision on the values the
code produces, so the rational model agrees with the float semantics on
these code paths.

Embedded modules:
  * `src/shared/database.py`               — `send_to_questdb` (sink writer)
  * `src/adapters/oanda/market_stream.py`  — chunked-HTTP price stream
  * `src/adapters/alpaca/market_stream.py` — quote stream and its
    cross-thread dispatch onto the primary event loop
  * `src/adapters/projectx/market_hub.py`  — persistent-hub adapter
  * `src/adapters/topstep_client.py`       — raw-socket listener loop
-/

/-- A normalized market observation, the record `send_to_questdb` persists:
symbol plus bid/ask/last/volume fields (`src/shared/database.py`, line 50). -/
structure MarketTick where
  symbol : String
  bid : ℚ
  ask : ℚ
  last : ℚ
  volume : ℚ
  deriving DecidableEq, Repr

/-- The data-model invariant stated by the specification for `MarketTick`:
at least one of bid, ask, last is non-zero, and the symbol is non-empty. -/
def tickInvariant (t : MarketTick) : Prop :=
  (t.bid ≠ 0 ∨ t.ask ≠ 0 ∨ t.last ≠ 0) ∧ t.symbol ≠ ""

instance (t : MarketTick) : Decidable (tickInvariant t) := by
  unfold tickInvariant; infer_instance

/-- Outcome of one sink write: either the line reached the store, or the
exception was caught by the catch-all handler and logged.  There is no
third constructor: `send_to_questdb` wraps its whole body in
`try ... except Exception`, so no exception escapes it. -/
inductive SinkOutcome where
  | written (t : MarketTick)
  | loggedError
  deriving DecidableEq, Repr

/-- `send_to_questdb` from `src/shared/database.py` (lines 40-58).  The
socket connect/send may fail; `sinkUp` models whether the time-series
store accepts the connection.  On failure the error is logged and the
function returns normally. -/
def send_to_questdb (sinkUp : Bool) (t : MarketTick) : SinkOutcome :=
  if sinkUp then .written t else .loggedError

namespace OandaMarketStream

/-- One entry of the `bids`/`asks` arrays of a `PRICE` message: a JSON
object whose `"price"` key may be absent (`.get("price", 0)` default). -/
structure PriceLevel where
  price : Option ℚ
  deriving DecidableEq, Repr

/-- A parsed JSON line of the chunked-HTTP pricing stream, after
`json.loads` succeeded.  Field accesses in the handler use `.get` with
defaults, modelled by `Option` fields. -/
inductive ParsedMsg where
  | heartbeat
  | price (instrument : Option String) (bids asks : List PriceLevel)
  | otherType
  deriving DecidableEq, Repr

/-- A raw line of the stream body: either malformed (`json.loads` raises
`JSONDecodeError`, caught at lines 107-110) or a parsed message. -/
inductive Line where
  | malformed
  | ok (m : ParsedMsg)
  deriving DecidableEq, Repr

/-- The payload dict built for the quote callback
(`src/adapters/oanda/market_stream.py`, line 136). -/
structure QuotePayload where
  symbol : String
  bid : ℚ
  ask : ℚ
  mid : ℚ
  deriving DecidableEq, Repr

/-- `MarketStream._handle_message` (lines 106-137): decode one line; on a
`PRICE` message with non-empty bid and ask arrays, take the first level of
each side (price default 0), compute `mid = (bid + ask) / 2`, and produce
the sink record and the callback payload.  `none` means the line produced
nothing: no sink write and no callback dispatch. -/
def handle_message (l : Line) : Option (MarketTick × QuotePayload) :=
  match l with
  | .malformed => none
  | .ok .heartbeat => none
  | .ok .otherType => none
  | .ok (.price instrument bids asks) =>
    match bids, asks with
    | [], _ => none
    | _, [] => none
    | b0 :: _, a0 :: _ =>
      let bid := b0.price.getD 0
      let ask := a0.price.getD 0
      let mid := (bid + ask) / 2
      let sym := instrument.getD ""
      some (⟨sym, bid, ask, mid, 0⟩, ⟨sym, bid, ask, mid⟩)

/-- `_MAX_BACKOFF` (line 29). -/
def MAX_BACKOFF : ℚ := 60

/-- Outcome of one iteration of the `while` loop in `_stream_loop`
(lines 78-104), seen from the backoff logic: either the connection
attempt fails (an exception reaches the `except Exception` branch while
the stop event is not set), or the connection succeeds — which resets
`backoff` to 1 at line 83 — and the stream later drops, reaching the same
`except` branch. -/
inductive Attempt where
  | connectFail
  | connectOkThenDrop
  deriving DecidableEq, Repr

/-- The sequence of `asyncio.sleep` delays performed by `_stream_loop`
for a given sequence of attempt outcomes, starting from the given
`backoff` value (initially `1.0`, line 70).  On each failure the loop
sleeps the current `backoff` (line 103) and then doubles it, capped:
`backoff = min(backoff * 2, _MAX_BACKOFF)` (line 104).  A successful
connection resets `backoff` to 1 before the next failure is handled. -/
def stream_loop_delays (backoff : ℚ) : List Attempt → List ℚ
  | [] => []
  | .connectFail :: rest =>
      backoff :: stream_loop_delays (min (backoff * 2) MAX_BACKOFF) rest
  | .connectOkThenDrop :: rest =>
      1 :: stream_loop_delays (min (1 * 2) MAX_BACKOFF) rest

/-- The backoff value after `n` consecutive failed iterations starting
from `backoff` (the fold of line 104). -/
def backoff_after (backoff : ℚ) : ℕ → ℚ
  | 0 => backoff
  | n + 1 => backoff_after (min (backoff * 2) MAX_BACKOFF) n

/-- One iteration of `_stream_loop` as seen by the cancellation logic of
`disconnect` (lines 56-65): `disconnect` sets the stop event and calls
`self._task.cancel()`, which raises `CancelledError` at whichever `await`
point the task is suspended on.
  * `failThenRetry` — the attempt fails with no cancellation: the loop
    logs the failure (line 99), sleeps the full backoff (line 103), and
    retries with the doubled, capped backoff.
  * `failCancelInSleep` — the attempt fails, the failure is logged, and
    the cancellation arrives during `asyncio.sleep(backoff)`: the sleep is
    interrupted, `CancelledError` propagates out of the `except` handler
    body, and the task exits at once.
  * `cancelInRead` — the cancellation arrives while the loop awaits the
    next line: caught by `except asyncio.CancelledError: return`
    (lines 94-95), the task exits with no log. -/
inductive IterOutcome where
  | failThenRetry
  | failCancelInSleep
  | cancelInRead
  deriving DecidableEq, Repr

/-- Observable actions of the stream-loop task. -/
inductive LoopAct where
  | logFailure (backoff : ℚ)
  | sleepFull (backoff : ℚ)
  | sleepInterrupted
  | taskExit
  deriving DecidableEq, Repr

/-- The action trace of `_stream_loop` over a schedule of iteration
outcomes, starting from the given backoff. -/
def run_loop (backoff : ℚ) : List IterOutcome → List LoopAct
  | [] => []
  | .failThenRetry :: rest =>
      .logFailure backoff :: .sleepFull backoff ::
        run_loop (min (backoff * 2) MAX_BACKOFF) rest
  | .failCancelInSleep :: _ =>
      [.logFailure backoff, .sleepInterrupted, .taskExit]
  | .cancelInRead :: _ => [.taskExit]

/-- The session state relevant to `connect` (lines 45-54): the stop flag
(`self._stop_event`) and the set of live streaming tasks the event loop is
running.  `asyncio.create_task` schedules a fresh task; the previous task,
if any, is neither cancelled nor awaited by `connect` — only its handle in
`self._task` is overwritten — so it stays in the live set. -/
structure SessionState where
  stopSet : Bool
  liveTasks : List ℕ
  nextTaskId : ℕ
  deriving DecidableEq, Repr

/-- `MarketStream.connect` (lines 45-54): clears the stop event and
unconditionally spawns a new `_stream_loop` task. -/
def connect (s : SessionState) : SessionState :=
  { stopSet := false
    liveTasks := s.nextTaskId :: s.liveTasks
    nextTaskId := s.nextTaskId + 1 }

/-- A session is running when at least one streaming task is live. -/
def running (s : SessionState) : Prop := s.liveTasks ≠ []

instance (s : SessionState) : Decidable (running s) := by
  unfold running; infer_instance

/-- The per-attempt read loop (lines 87-92) composed with the sink write
and callback dispatch of `_handle_message`, over a schedule of sink
availabilities (`sink.headD true` is the availability at the time of the
k-th write; the sink transport is a fresh short-lived socket per write).
Returns the sink outcomes of the attempted writes and the callback
payloads dispatched. -/
def process_lines : List Bool → List Line → List SinkOutcome × List QuotePayload
  | _, [] => ([], [])
  | sink, l :: rest =>
    match handle_message l with
    | none => process_lines sink rest
    | some (tick, payload) =>
      let r := process_lines sink.tail rest
      (send_to_questdb (sink.headD true) tick :: r.1, payload :: r.2)

end OandaMarketStream

namespace AlpacaMarketStream

/-- The quote object handed to `MarketStream._quote_handler`
(`src/adapters/alpaca/market_stream.py`, lines 81-104).  Price and size
fields may be `None` (`data.bid_price or 0.0` defaults them to `0.0`;
numerically the same as `Option.getD 0` since `0 or 0.0` is also `0.0`). -/
structure QuoteData where
  symbol : String
  bid_price : Option ℚ
  ask_price : Option ℚ
  bid_size : Option ℚ
  ask_size : Option ℚ
  timestamp : String
  deriving DecidableEq, Repr

/-- The sink record written by `_quote_handler` (line 90):
`send_to_questdb(symbol=symbol, bid=bid, ask=ask, last=0.0, volume=0.0)`. -/
def quote_tick (d : QuoteData) : MarketTick :=
  ⟨d.symbol, d.bid_price.getD 0, d.ask_price.getD 0, 0, 0⟩

/-- The payload dict built for the quote callback (lines 93-100). -/
structure QuotePayload where
  symbol : String
  bid : ℚ
  ask : ℚ
  bid_size : ℚ
  ask_size : ℚ
  timestamp : String
  deriving DecidableEq, Repr

/-- The normalized payload `_quote_handler` dispatches for one quote. -/
def quote_payload (d : QuoteData) : QuotePayload :=
  ⟨d.symbol, d.bid_price.getD 0, d.ask_price.getD 0,
   d.bid_size.getD 0, d.ask_size.getD 0, d.timestamp⟩

/-- State of the cross-thread dispatch bridge: the adapter thread runs
`_quote_handler` on each frame in `remaining`, in order; each call to
`asyncio.run_coroutine_threadsafe` (lines 101-104) appends the dispatch to
the primary loop's FIFO call queue (`queued`); the primary loop executes
queued dispatches in order, appending each payload to `delivered`. -/
structure DispatchState where
  remaining : List QuoteData
  queued : List QuotePayload
  delivered : List QuotePayload
  deriving DecidableEq, Repr

/-- An interleaving step: either the adapter thread handles its next
frame, or the primary loop runs its next queued dispatch. -/
inductive DispatchStep where
  | handleFrame
  | runQueued
  deriving DecidableEq, Repr

/-- One step of the two-context system.  A step with nothing to do leaves
the state unchanged. -/
def dispatch_step (s : DispatchState) : DispatchStep → DispatchState
  | .handleFrame =>
    match s.remaining with
    | [] => s
    | f :: fs => ⟨fs, s.queued ++ [quote_payload f], s.delivered⟩
  | .runQueued =>
    match s.queued with
    | [] => s
    | p :: ps => ⟨s.remaining, ps, s.delivered ++ [p]⟩

/-- Run the system under an arbitrary interleaving schedule. -/
def dispatch_run (s : DispatchState) : List DispatchStep → DispatchState
  | [] => s
  | st :: sched => dispatch_run (dispatch_step s st) sched

/-- Invariant tying any reachable state to the original frame list: some
prefix of the frames has been handled, and the delivered and queued
payloads together are exactly that prefix's normalized payloads, in
order. -/
def DispatchInv (frames : List QuoteData) (s : DispatchState) : Prop :=
  ∃ k, s.remaining = frames.drop k ∧
    s.delivered ++ s.queued = (frames.take k).map quote_payload

/-- Two concrete frames used to exercise the dispatch theorems. -/
def demoFrames : List QuoteData :=
  [⟨"AAPL", some 100, some (402/4), some 3, some 5, "t1"⟩,
   ⟨"MSFT", some 50, none, none, none, "t2"⟩]

/-- A concrete interleaving: both frames handled, then both dispatches
run. -/
def demoSched : List DispatchStep :=
  [.handleFrame, .handleFrame, .runQueued, .runQueued]

end AlpacaMarketStream

namespace MarketHub

/-- The adapter-side state of the hub connection that `subscribe_quotes`
touches (`src/adapters/projectx/market_hub.py`, lines 59-61): the sequence
of server invocations sent so far, as (method, argument) pairs.  The class
keeps no record of which contracts are subscribed — there is no
subscription set. -/
structure HubState where
  sentInvocations : List (String × String)
  deriving DecidableEq, Repr

/-- `MarketHub.subscribe_quotes` (lines 59-61): unconditionally sends the
`SubscribeContractQuotes` invocation for the given contract id. -/
def subscribe_quotes (s : HubState) (contractId : String) : HubState :=
  ⟨s.sentInvocations ++ [("SubscribeContractQuotes", contractId)]⟩

/-- The quote dict delivered with a `GatewayQuote` event (`_on_quote`,
lines 83-104); every field access uses `.get` with a default. -/
structure QuoteEventData where
  symbol : Option String
  bestBid : Option ℚ
  bestAsk : Option ℚ
  lastPrice : Option ℚ
  volume : Option ℚ
  deriving DecidableEq, Repr

/-- The sink record written by `_on_quote` (lines 92-98).  `args0` models
`args[0] if args else ""` and `data` models
`args[1] if len(args) > 1 else {}`. -/
def on_quote_tick (args0 : Option String) (data : Option QuoteEventData) :
    MarketTick :=
  let contractId := args0.getD ""
  let d := data.getD ⟨none, none, none, none, none⟩
  ⟨d.symbol.getD contractId, d.bestBid.getD 0, d.bestAsk.getD 0,
   d.lastPrice.getD 0, d.volume.getD 0⟩

end MarketHub

namespace TopstepClient

/-- One inbound WebSocket message of `_listen_message`
(`src/adapters/topstep_client.py`, lines 42-53): either malformed
(`json.loads` raises), a ticker (`data.get("type") == "ticker"`, fields
`bid`/`ask`/`last`/`vol` read with `.get(..., 0.0)` defaults), or any
other well-formed message. -/
inductive WsMsg where
  | malformed
  | ticker (bid ask last vol : Option ℚ)
  | otherType
  deriving DecidableEq, Repr

/-- How the listen loop ends early.
  * `jsonDecodeError` — line 45 runs `json.loads(message)` with no
    surrounding `try`, so a malformed message raises out of the loop.
  * `awaitTypeError` — line 53 is `await send_to_questdb(...)`, but
    `send_to_questdb` is a plain synchronous function returning `None`;
    after the write executes, awaiting `None` raises `TypeError`.  Either
    exception propagates through `asyncio.gather` to the
    `except Exception` branch of `connect` (lines 37-40). -/
inductive ListenError where
  | jsonDecodeError
  | awaitTypeError
  deriving DecidableEq, Repr

/-- `_listen_message` over a list of inbound messages: the sink outcomes
of the writes performed, and the exception (if any) that ended the loop.
An empty remainder with no error models the connection closing normally.
`sinkUp` is the sink availability (see `send_to_questdb`). -/
def listen_message (symbol : String) (sinkUp : Bool) :
    List WsMsg → List SinkOutcome × Option ListenError
  | [] => ([], none)
  | .malformed :: _ => ([], some .jsonDecodeError)
  | .otherType :: rest => listen_message symbol sinkUp rest
  | .ticker b a l v :: _ =>
      ([send_to_questdb sinkUp ⟨symbol, b.getD 0, a.getD 0, l.getD 0, v.getD 0⟩],
       some .awaitTypeError)

/-- The fixed reconnect sleep of `connect`'s `except Exception` branch:
`await asyncio.sleep(5)` (line 40). -/
def retry_sleep : ℚ := 5

end TopstepClient

/-! ## Theorems -/

/-- Capping commutes with the doubling step: doubling an already-capped
delay and capping again equals doubling the uncapped delay and capping. -/
lemma min_cap_double (x : ℚ) :
    min (min x 60 * 2) 60 = min (x * 2) 60 := by
  rcases le_total x 60 with h | h
  · rw [min_eq_left h]
  · rw [min_eq_right h]
    have h2 : (60 : ℚ) ≤ x * 2 := by linarith
    rw [min_eq_right h2]
    norm_num

/-- Closed form for the delay sequence from an arbitrary capped power of
two: starting at `min (2^k) 60`, the `j`-th delay is `min (2^(k+j)) 60`. -/
lemma stream_loop_delays_replicate (n k : ℕ) :
    OandaMarketStream.stream_loop_delays (min ((2 : ℚ) ^ k) 60)
        (List.replicate n .connectFail)
      = (List.range n).map (fun j => min ((2 : ℚ) ^ (k + j)) 60) := by
  induction n generalizing k with
  | zero => simp [OandaMarketStream.stream_loop_delays]
  | succ n ih =>
    rw [List.replicate_succ]
    show (min ((2 : ℚ) ^ k) 60) ::
        OandaMarketStream.stream_loop_delays
          (min (min ((2 : ℚ) ^ k) 60 * 2) OandaMarketStream.MAX_BACKOFF)
          (List.replicate n .connectFail) = _
    have hcap : min (min ((2 : ℚ) ^ k) 60 * 2) OandaMarketStream.MAX_BACKOFF
        = min ((2 : ℚ) ^ (k + 1)) 60 := by
      show min (min ((2 : ℚ) ^ k) 60 * 2) 60 = _
      rw [min_cap_double]
      ring_nf
    rw [hcap, ih (k + 1), List.range_succ_eq_map, List.map_cons, List.map_map]
    simp only [Nat.add_zero, Function.comp_def]
    have hfun : (fun j => (2 : ℚ) ^ (k + 1 + j) ⊓ 60)
        = fun j => (2 : ℚ) ^ (k + Nat.succ j) ⊓ 60 := by
      funext j
      have : k + 1 + j = k + Nat.succ j := by omega
      rw [this]
    rw [hfun]

/-- Claim C2: in a run of `_stream_loop` in which every connection attempt
fails immediately, the sleep delays are exactly `1, 2, 4, 8, 16, 32, 60,
60, 60, ...`: the `k`-th delay is `min (2^k) 60` (doubling after each
failure, capped at 60, slept before the retry), and after a successful
connection the backoff resets so the next failure sleeps 1 and continues
with backoff 2. -/
theorem c2_backoff_sequence :
    (∀ n : ℕ,
      OandaMarketStream.stream_loop_delays 1
          (List.replicate n .connectFail)
        = (List.range n).map (fun k => min ((2 : ℚ) ^ k) 60)) ∧
    (∀ (b : ℚ) (rest : List OandaMarketStream.Attempt),
      OandaMarketStream.stream_loop_delays b (.connectOkThenDrop :: rest)
        = 1 :: OandaMarketStream.stream_loop_delays 2 rest) := by
  constructor
  · intro n
    have h1 : (1 : ℚ) = min ((2 : ℚ) ^ (0 : ℕ)) 60 := by norm_num
    rw [h1, stream_loop_delays_replicate n 0]
    simp
  · intro b rest
    show 1 :: OandaMarketStream.stream_loop_delays
        (min (1 * 2) OandaMarketStream.MAX_BACKOFF) rest = _
    norm_num [OandaMarketStream.MAX_BACKOFF]

/-- Claim C9: a `PRICE` message whose bids array or asks array is empty
produces zero ticks — `handle_message` returns `none`, so there is no sink
write and no callback dispatch. -/
theorem c9_empty_side_dropped (instrument : Option String)
    (bids asks : List OandaMarketStream.PriceLevel)
    (h : bids = [] ∨ asks = []) :
    OandaMarketStream.handle_message
      (.ok (.price instrument bids asks)) = none := by
  rcases h with h | h
  · subst h; cases asks <;> rfl
  · subst h; cases bids <;> rfl

/-- Witness for C9 at a concrete message: instrument `XAU_USD`, one bid
level, empty asks array. -/
theorem c9_empty_side_dropped_witness :
    OandaMarketStream.handle_message
      (.ok (.price (some "XAU_USD") [⟨some 1900⟩] [])) = none :=
  c9_empty_side_dropped (some "XAU_USD") [⟨some 1900⟩] [] (Or.inr rfl)

/-- Claim C10: a `PRICE` message with non-empty bids and asks whose first
level lacks the `"price"` field is not dropped: the missing side defaults
to 0 and a tick is emitted with `last = (bid + ask) / 2` computed with
that zero — `last = ask / 2` when the best bid has no price field, and
symmetrically `last = bid / 2` when the best ask has no price field. -/
theorem c10_missing_price_defaults_zero (instrument : Option String)
    (q : ℚ) (bs as : List OandaMarketStream.PriceLevel) :
    OandaMarketStream.handle_message
        (.ok (.price instrument (⟨none⟩ :: bs) (⟨some q⟩ :: as)))
      = some (⟨instrument.getD "", 0, q, q / 2, 0⟩,
              ⟨instrument.getD "", 0, q, q / 2⟩) ∧
    OandaMarketStream.handle_message
        (.ok (.price instrument (⟨some q⟩ :: bs) (⟨none⟩ :: as)))
      = some (⟨instrument.getD "", q, 0, q / 2, 0⟩,
              ⟨instrument.getD "", q, 0, q / 2⟩) := by
  constructor
  · simp [OandaMarketStream.handle_message, Option.getD, zero_add]
  · simp [OandaMarketStream.handle_message, Option.getD, add_zero]

/-- Claim C4, part (a): in a loop run of `n` ordinary failed attempts
followed by an attempt whose backoff sleep is interrupted by `stop()`, the
trace is the trace of the `n` ordinary iterations, then the failure log of
the last attempt, the interrupted sleep, and the immediate task exit —
nothing after: the schedule after the cancellation is never executed, no
further sleep is served, and no further failure is logged.  Part (b): in
any trace, whatever follows an interrupted sleep is exactly the task exit,
so a stop-induced cancellation is never followed by a failure log or a
completed sleep. -/
theorem c4_stop_unblocks_backoff_sleep :
    (∀ (b : ℚ) (n : ℕ) (rest : List OandaMarketStream.IterOutcome),
      OandaMarketStream.run_loop b
          (List.replicate n .failThenRetry ++ .failCancelInSleep :: rest)
        = OandaMarketStream.run_loop b (List.replicate n .failThenRetry)
          ++ [.logFailure (OandaMarketStream.backoff_after b n),
              .sleepInterrupted, .taskExit]) ∧
    (∀ (b : ℚ) (iters : List OandaMarketStream.IterOutcome)
        (pre post : List OandaMarketStream.LoopAct),
      OandaMarketStream.run_loop b iters = pre ++ .sleepInterrupted :: post →
      post = [.taskExit]) := by
  constructor
  · intro b n rest
    induction n generalizing b with
    | zero => rfl
    | succ n ih =>
      rw [List.replicate_succ, List.cons_append]
      simp only [OandaMarketStream.run_loop]
      rw [ih]
      simp [OandaMarketStream.backoff_after]
  · intro b iters
    induction iters generalizing b with
    | nil =>
      intro pre post h
      rw [OandaMarketStream.run_loop] at h
      rcases pre with _ | ⟨a, pre⟩ <;> simp at h
    | cons it rest ih =>
      intro pre post h
      cases it with
      | failThenRetry =>
        rw [OandaMarketStream.run_loop] at h
        rcases pre with _ | ⟨a, _ | ⟨a2, pre2⟩⟩
        · simp at h
        · simp only [List.cons_append, List.nil_append] at h
          injection h with h1 h2
          injection h2 with h3 h4
          exact absurd h3 (by simp)
        · simp only [List.cons_append] at h
          injection h with h1 h2
          injection h2 with h3 h4
          exact ih _ pre2 post h4
      | failCancelInSleep =>
        rw [OandaMarketStream.run_loop] at h
        rcases pre with _ | ⟨a, _ | ⟨a2, _ | ⟨a3, pre3⟩⟩⟩
        · simp at h
        · simp only [List.cons_append, List.nil_append] at h
          injection h with h1 h2
          injection h2 with h3 h4
          exact h4.symm
        · simp at h
        · simp at h
      | cancelInRead =>
        rw [OandaMarketStream.run_loop] at h
        rcases pre with _ | ⟨a, pre⟩ <;> simp at h

/-- Witness for C4 part (b) at a concrete trace: a single attempt whose
backoff sleep is interrupted; what follows the interrupted sleep is the
task exit alone. -/
theorem c4_stop_unblocks_backoff_sleep_witness :
    OandaMarketStream.run_loop 1 [.failCancelInSleep]
      = [OandaMarketStream.LoopAct.logFailure 1] ++ .sleepInterrupted :: [.taskExit] ∧
    ([OandaMarketStream.LoopAct.taskExit] : List OandaMarketStream.LoopAct)
      = [.taskExit] :=
  ⟨by decide,
   c4_stop_unblocks_backoff_sleep.2 1 [.failCancelInSleep]
     [.logFailure 1] [.taskExit] (by decide)⟩

/-- Counterexample to claim C5: a session on which `connect` has been
called once is running (its streaming task is live), yet calling `connect`
again is not a no-op — it changes the state and leaves two live streaming
tasks. -/
theorem c5_connect_not_idempotent_counterexample :
    OandaMarketStream.running (OandaMarketStream.connect ⟨false, [], 0⟩) ∧
    OandaMarketStream.connect (OandaMarketStream.connect ⟨false, [], 0⟩)
      ≠ OandaMarketStream.connect ⟨false, [], 0⟩ ∧
    (OandaMarketStream.connect
        (OandaMarketStream.connect ⟨false, [], 0⟩)).liveTasks.length = 2 := by
  decide

/-- Claim C5 as amended: `connect` is not idempotent.  Every call clears
the stop flag and spawns one additional streaming task; the previously
spawned tasks remain live (only the stored task handle is overwritten),
so `n` calls leave `n` more live run loops. -/
theorem c5_connect_spawns_second_loop
    (s : OandaMarketStream.SessionState) (n : ℕ) :
    (OandaMarketStream.connect s).stopSet = false ∧
    (OandaMarketStream.connect s).liveTasks.length
      = s.liveTasks.length + 1 ∧
    List.Sublist s.liveTasks (OandaMarketStream.connect s).liveTasks ∧
    (OandaMarketStream.connect^[n] s).liveTasks.length
      = s.liveTasks.length + n := by
  refine ⟨rfl, rfl, List.sublist_cons_self _ _, ?_⟩
  induction n with
  | zero => simp
  | succ n ih =>
    rw [Function.iterate_succ_apply']
    show ((OandaMarketStream.connect^[n] s).liveTasks.length + 1) = _
    omega

/-- Counterexample to claim C6: re-subscribing to an already-subscribed
contract id is not a no-op — the hub adapter keeps no subscription set and
sends the `SubscribeContractQuotes` invocation a second time. -/
theorem c6_resubscribe_counterexample :
    MarketHub.subscribe_quotes
        (MarketHub.subscribe_quotes ⟨[]⟩ "CON.F.US.MGC") "CON.F.US.MGC"
      ≠ MarketHub.subscribe_quotes ⟨[]⟩ "CON.F.US.MGC" ∧
    ((MarketHub.subscribe_quotes
        (MarketHub.subscribe_quotes ⟨[]⟩ "CON.F.US.MGC")
        "CON.F.US.MGC").sentInvocations.count
          ("SubscribeContractQuotes", "CON.F.US.MGC")) = 2 := by
  decide

/-- Claim C6 as amended: `subscribe_quotes` keeps no subscription set and
unconditionally sends the server invocation, so `n` subscribe calls for
the same key send `n` invocations for that key. -/
theorem c6_resubscribe_sends_duplicate
    (s : MarketHub.HubState) (cid : String) (n : ℕ) :
    ((fun t => MarketHub.subscribe_quotes t cid)^[n] s).sentInvocations.length
      = s.sentInvocations.length + n ∧
    ((fun t => MarketHub.subscribe_quotes t cid)^[n] s).sentInvocations.count
        ("SubscribeContractQuotes", cid)
      = s.sentInvocations.count ("SubscribeContractQuotes", cid) + n := by
  induction n with
  | zero => simp
  | succ n ih =>
    rw [Function.iterate_succ_apply']
    constructor
    · show (((fun t => MarketHub.subscribe_quotes t cid)^[n] s).sentInvocations
          ++ [("SubscribeContractQuotes", cid)]).length = _
      rw [List.length_append, ih.1]
      simp only [List.length_singleton]
      omega
    · show (((fun t => MarketHub.subscribe_quotes t cid)^[n] s).sentInvocations
          ++ [("SubscribeContractQuotes", cid)]).count
            ("SubscribeContractQuotes", cid) = _
      rw [List.count_append, ih.2]
      have hc : List.count ("SubscribeContractQuotes", cid)
          [("SubscribeContractQuotes", cid)] = 1 := by simp
      rw [hc]
      omega

/-- Counterexample to claim C7: adapter decode can produce a `MarketTick`
violating the data-model invariant.  An Alpaca quote whose bid and ask
prices are both `None` decodes to an all-zero tick (the quote path always
writes `last = 0`), and a `GatewayQuote` event with no arguments decodes
to a tick with an empty symbol and all-zero prices. -/
theorem c7_tick_invariant_counterexample :
    ¬ tickInvariant (AlpacaMarketStream.quote_tick
        ⟨"FAKEPACA", none, none, none, none, "2025-01-01T00:00:00Z"⟩) ∧
    ¬ tickInvariant (MarketHub.on_quote_tick none none) := by
  decide

/-- Claim C7 as amended: adapter decode performs no validation — it copies
the source fields with zero defaults.  The produced tick satisfies the
invariant exactly when the source data already guarantees it: for the
Alpaca quote path (which always writes `last = 0`), when the quote has a
non-zero bid or ask price and a non-empty symbol; and a hub quote event
carrying no data dict always yields an invariant-violating tick. -/
theorem c7_decode_performs_no_validation
    (d : AlpacaMarketStream.QuoteData) (args0 : Option String) :
    (tickInvariant (AlpacaMarketStream.quote_tick d)
      ↔ (d.bid_price.getD 0 ≠ 0 ∨ d.ask_price.getD 0 ≠ 0) ∧ d.symbol ≠ "") ∧
    ¬ tickInvariant (MarketHub.on_quote_tick args0 none) := by
  constructor
  · simp [tickInvariant, AlpacaMarketStream.quote_tick]
  · simp [tickInvariant, MarketHub.on_quote_tick]

/-- Counterexample to claim C3: a malformed message is not skipped.  With
a malformed message followed by a well-formed ticker, the listen loop ends
at the malformed message with a `JSONDecodeError` (processing nothing and
never reaching the next message), instead of continuing as it would had
the malformed message been absent. -/
theorem c3_malformed_not_skipped_counterexample :
    TopstepClient.listen_message "MGC" true
        [.malformed, .ticker (some 1900) (some 1901) (some 1900) (some 5)]
      ≠ TopstepClient.listen_message "MGC" true
        [.ticker (some 1900) (some 1901) (some 1900) (some 5)] ∧
    (TopstepClient.listen_message "MGC" true
        [.malformed, .ticker (some 1900) (some 1901) (some 1900) (some 5)]).2
      = some .jsonDecodeError ∧
    (TopstepClient.listen_message "MGC" true
        [.malformed, .ticker (some 1900) (some 1901) (some 1900) (some 5)]).1
      = [] := by
  decide

/-- Claim C3 as amended: `json.loads` runs with no surrounding `try`, so a
malformed message raises a decode error that ends the current listen loop
— later messages of the same connection are never processed — and the
connection loop's `except` branch then retries after the fixed 5-unit
sleep.  Only well-formed non-ticker messages are skipped. -/
theorem c3_malformed_ends_attempt (symbol : String) (sinkUp : Bool)
    (rest : List TopstepClient.WsMsg) :
    TopstepClient.listen_message symbol sinkUp (.malformed :: rest)
      = ([], some .jsonDecodeError) ∧
    TopstepClient.listen_message symbol sinkUp (.otherType :: rest)
      = TopstepClient.listen_message symbol sinkUp rest ∧
    TopstepClient.retry_sleep = 5 :=
  ⟨rfl, rfl, rfl⟩

/-- The callback payloads and the number of attempted writes of the
chunked-HTTP handler do not depend on the sink availability schedule. -/
lemma process_lines_sink_independent (lines : List OandaMarketStream.Line) :
    ∀ sink sink2 : List Bool,
      (OandaMarketStream.process_lines sink lines).2
        = (OandaMarketStream.process_lines sink2 lines).2 ∧
      (OandaMarketStream.process_lines sink lines).1.length
        = (OandaMarketStream.process_lines sink2 lines).1.length := by
  induction lines with
  | nil => intro s1 s2; exact ⟨rfl, rfl⟩
  | cons l rest ih =>
    intro s1 s2
    cases h : OandaMarketStream.handle_message l with
    | none =>
      simp only [OandaMarketStream.process_lines, h]
      exact ih s1 s2
    | some tp =>
      obtain ⟨tick, payload⟩ := tp
      simp only [OandaMarketStream.process_lines, h, List.length_cons]
      exact ⟨congrArg (payload :: ·) (ih s1.tail s2.tail).1,
             by rw [(ih s1.tail s2.tail).2]⟩

/-- The raw-socket listener's control flow does not depend on sink
availability: same number of write attempts, same loop-ending outcome. -/
lemma listen_message_sink_independent (symbol : String)
    (msgs : List TopstepClient.WsMsg) :
    (TopstepClient.listen_message symbol false msgs).1.length
      = (TopstepClient.listen_message symbol true msgs).1.length ∧
    (TopstepClient.listen_message symbol false msgs).2
      = (TopstepClient.listen_message symbol true msgs).2 := by
  induction msgs with
  | nil => exact ⟨rfl, rfl⟩
  | cons m rest ih =>
    cases m with
    | malformed => exact ⟨rfl, rfl⟩
    | otherType =>
      simp only [TopstepClient.listen_message]
      exact ih
    | ticker b a l v => exact ⟨rfl, rfl⟩

/-- Claim C8: a sink-write failure is contained inside `send_to_questdb`
(its catch-all handler turns any connection error into a logged outcome;
the only possible results are `written` and `loggedError`, never an
exception), so it is never raised into the adapters' message-handling
paths: the chunked-HTTP handler dispatches the same callback payloads and
attempts the same number of writes under any sink-availability schedule,
and the raw-socket listener performs the same write attempts and ends the
same way whether the sink is up or down. -/
theorem c8_sink_failure_contained (sink sink2 : List Bool)
    (lines : List OandaMarketStream.Line) (up : Bool) (t : MarketTick)
    (symbol : String) (msgs : List TopstepClient.WsMsg) :
    (send_to_questdb up t = .written t ∨ send_to_questdb up t = .loggedError) ∧
    (OandaMarketStream.process_lines sink lines).2
      = (OandaMarketStream.process_lines sink2 lines).2 ∧
    (OandaMarketStream.process_lines sink lines).1.length
      = (OandaMarketStream.process_lines sink2 lines).1.length ∧
    (TopstepClient.listen_message symbol false msgs).1.length
      = (TopstepClient.listen_message symbol true msgs).1.length ∧
    (TopstepClient.listen_message symbol false msgs).2
      = (TopstepClient.listen_message symbol true msgs).2 := by
  refine ⟨?_, (process_lines_sink_independent lines sink sink2).1,
          (process_lines_sink_independent lines sink sink2).2,
          (listen_message_sink_independent symbol msgs).1,
          (listen_message_sink_independent symbol msgs).2⟩
  cases up
  · right; rfl
  · left; rfl

/-- The dispatch invariant is preserved by every step of either context. -/
lemma dispatch_step_inv (frames : List AlpacaMarketStream.QuoteData)
    (s : AlpacaMarketStream.DispatchState)
    (st : AlpacaMarketStream.DispatchStep)
    (h : AlpacaMarketStream.DispatchInv frames s) :
    AlpacaMarketStream.DispatchInv frames
      (AlpacaMarketStream.dispatch_step s st) := by
  obtain ⟨k, hrem, hpay⟩ := h
  cases st with
  | handleFrame =>
    cases hr : s.remaining with
    | nil =>
      simp only [AlpacaMarketStream.dispatch_step, hr]
      exact ⟨k, hrem, hpay⟩
    | cons f fs =>
      simp only [AlpacaMarketStream.dispatch_step, hr]
      have hdk : frames.drop k = f :: fs := by rw [← hrem, hr]
      refine ⟨k + 1, ?_, ?_⟩
      · show fs = frames.drop (k + 1)
        rw [← List.tail_drop, hdk]
        rfl
      · show s.delivered ++ (s.queued ++ [AlpacaMarketStream.quote_payload f])
          = (frames.take (k + 1)).map AlpacaMarketStream.quote_payload
        have hget : frames[k]? = some f := by
          have h0 : (frames.drop k)[0]? = some f := by rw [hdk]; simp
          rwa [List.getElem?_drop, Nat.add_zero] at h0
        rw [List.take_succ, hget, Option.toList_some, List.map_append,
            ← List.append_assoc, hpay]
        rfl
  | runQueued =>
    cases hq : s.queued with
    | nil =>
      simp only [AlpacaMarketStream.dispatch_step, hq]
      exact ⟨k, hrem, hpay⟩
    | cons p ps =>
      simp only [AlpacaMarketStream.dispatch_step, hq]
      rw [hq] at hpay
      refine ⟨k, hrem, ?_⟩
      show (s.delivered ++ [p]) ++ ps = _
      rw [List.append_assoc, List.singleton_append]
      exact hpay

/-- The dispatch invariant holds after running any schedule. -/
lemma dispatch_run_inv (frames : List AlpacaMarketStream.QuoteData)
    (sched : List AlpacaMarketStream.DispatchStep) :
    ∀ s, AlpacaMarketStream.DispatchInv frames s →
      AlpacaMarketStream.DispatchInv frames
        (AlpacaMarketStream.dispatch_run s sched) := by
  induction sched with
  | nil => intro s h; exact h
  | cons st sched ih =>
    intro s h
    exact ih _ (dispatch_step_inv frames s st h)

/-- Claim C1: under every interleaving of the adapter thread (handling
frames in source order) and the primary event loop (running queued
dispatches in FIFO order), the payloads delivered to the registered
callback are a prefix of the normalized payloads of the frames in source
order — no reordering and no duplication — and once all frames are handled
and the queue is drained, the delivered sequence is exactly the normalized
frame sequence. -/
theorem c1_dispatch_preserves_order
    (frames : List AlpacaMarketStream.QuoteData)
    (sched : List AlpacaMarketStream.DispatchStep) :
    (AlpacaMarketStream.dispatch_run ⟨frames, [], []⟩ sched).delivered
      = (frames.map AlpacaMarketStream.quote_payload).take
          (AlpacaMarketStream.dispatch_run ⟨frames, [], []⟩
            sched).delivered.length ∧
    ((AlpacaMarketStream.dispatch_run ⟨frames, [], []⟩ sched).remaining = []
      ∧ (AlpacaMarketStream.dispatch_run ⟨frames, [], []⟩ sched).queued = []
      → (AlpacaMarketStream.dispatch_run ⟨frames, [], []⟩ sched).delivered
        = frames.map AlpacaMarketStream.quote_payload) := by
  obtain ⟨k, hrem, hpay⟩ :=
    dispatch_run_inv frames sched ⟨frames, [], []⟩ ⟨0, rfl, rfl⟩
  constructor
  · have h1 : (AlpacaMarketStream.dispatch_run ⟨frames, [], []⟩
        sched).delivered
      = ((AlpacaMarketStream.dispatch_run ⟨frames, [], []⟩ sched).delivered
          ++ (AlpacaMarketStream.dispatch_run ⟨frames, [], []⟩
            sched).queued).take
        (AlpacaMarketStream.dispatch_run ⟨frames, [], []⟩
          sched).delivered.length := (List.take_left _ _).symm
    rw [hpay, List.map_take, List.take_take] at h1
    have h2 : (AlpacaMarketStream.dispatch_run ⟨frames, [], []⟩
          sched).delivered.length
        + (AlpacaMarketStream.dispatch_run ⟨frames, [], []⟩
          sched).queued.length
      = min k frames.length := by
      rw [← List.length_append, hpay, List.length_map, List.length_take]
    have h3 := Nat.min_le_left k frames.length
    have hlen : (AlpacaMarketStream.dispatch_run ⟨frames, [], []⟩
        sched).delivered.length ≤ k := by omega
    rwa [min_eq_left hlen] at h1
  · rintro ⟨hre, hqu⟩
    rw [hre] at hrem
    have hk : frames.length ≤ k := by
      exact List.drop_eq_nil_iff.mp hrem.symm
    have htake : frames.take k = frames := List.take_of_length_le hk
    rw [hqu, List.append_nil] at hpay
    rw [hpay, htake]

/-- Witness for C1 at a concrete run: both demo frames handled, both
dispatches executed; the delivered sequence equals the normalized frame
sequence in source order. -/
theorem c1_dispatch_preserves_order_witness :
    (AlpacaMarketStream.dispatch_run ⟨AlpacaMarketStream.demoFrames, [], []⟩
        AlpacaMarketStream.demoSched).remaining = [] ∧
    (AlpacaMarketStream.dispatch_run ⟨AlpacaMarketStream.demoFrames, [], []⟩
        AlpacaMarketStream.demoSched).queued = [] ∧
    (AlpacaMarketStream.dispatch_run ⟨AlpacaMarketStream.demoFrames, [], []⟩
        AlpacaMarketStream.demoSched).delivered
      = AlpacaMarketStream.demoFrames.map AlpacaMarketStream.quote_payload :=
  ⟨by decide, by decide,
   (c1_dispatch_preserves_order AlpacaMarketStream.demoFrames
      AlpacaMarketStream.demoSched).2 ⟨by decide, by decide⟩⟩
